import Mathlib

/-!
Verification of the romboss header-recognition core against its specification.

The Rust sources under `src/platform/` are shallowly embedded below:
pure functions become Lean functions, machine integers become `Nat` with an
explicit `% 2 ^ w` wherever the Rust arithmetic can wrap (release-mode
wrapping semantics; the corresponding debug build would abort at the same
inputs, so neither semantics yields a graceful result where wrapping shows
up in a theorem), and fallible code returns `Except`/`Option`.  A byte
source (an opened file) is modelled as a length plus a byte-valued
function; reads past the end of the source yield the zero bytes that the
Rust code's zero-initialised, fixed-size read buffers contain there.
-/

/-- A byte source of known total length: `data i` is the byte at position
`i` for `i < len`.  Models an opened file (`File` + `metadata.len()`). -/
structure ByteSrc where
  len : Nat
  data : Nat → Nat

/-- `Iterator::position`: index of the first element satisfying `p`. -/
def position (p : α → Bool) : List α → Option Nat
  | [] => none
  | a :: l => if p a then some 0 else (position p l).map (· + 1)

/-- Read `n` consecutive bytes starting at `start` from a buffer. -/
def readBytes (buf : Nat → Nat) (start n : Nat) : List Nat :=
  (List.range n).map (fun i => buf (start + i))

/-- Big-endian `u16` read (binread `#[br(big)]`). -/
def read_u16_be (buf : Nat → Nat) (start : Nat) : Nat :=
  buf start * 256 + buf (start + 1)

/-- Rust's `format!("{:#x}", code)`: `0x` followed by lowercase hex digits. -/
def rustHexFmt (code : Nat) : String :=
  "0x" ++ String.mk (Nat.toDigits 16 code)

namespace Snes

/-- `snes.rs` `RomHeader` (48 bytes, big-endian, parsed by binread).  The
source decodes `name` from its 21 raw bytes via the external EUC-JP codec
(errors ignored, trailing spaces trimmed); the codec is an external crate,
so the raw bytes are kept here.  No claim inspects the decoded title. -/
structure RomHeader where
  maker_code : List Nat
  game_code : List Nat
  fixed_value : List Nat
  exapnsion_ram_size : Nat
  special_version : Nat
  cartridge_type : Nat
  name_raw : List Nat
  map_mode : Nat
  rom_type : Nat
  rom_size : Nat
  sram_size : Nat
  destination_code : Nat
  fixed_value_2 : Nat
  version : Nat
  complement_check : Nat
  checksum : Nat
deriving DecidableEq, Repr

/-- `read_header_at`: parse the fixed 48-byte header layout at `off`
within a buffer.  (In the source the cursor read cannot underrun: the
buffer is a fixed 32816-byte array and both parse offsets leave exactly
at least 48 bytes, so the parse is total.) -/
def read_header_at (buf : Nat → Nat) (off : Nat) : RomHeader where
  maker_code := readBytes buf (off + 0) 2
  game_code := readBytes buf (off + 2) 4
  fixed_value := readBytes buf (off + 6) 7
  exapnsion_ram_size := buf (off + 13)
  special_version := buf (off + 14)
  cartridge_type := buf (off + 15)
  name_raw := readBytes buf (off + 16) 21
  map_mode := buf (off + 37)
  rom_type := buf (off + 38)
  rom_size := buf (off + 39)
  sram_size := buf (off + 40)
  destination_code := buf (off + 41)
  fixed_value_2 := buf (off + 42)
  version := buf (off + 43)
  complement_check := read_u16_be buf (off + 44)
  checksum := read_u16_be buf (off + 46)

/-- `FIXED_VALUE_1`: the all-zero 7-byte sentinel `[0u8; 7]`. -/
def FIXED_VALUE_1 : List Nat := List.replicate 7 0

/-- `header_checks_out`: the validation predicate.  `calculated_size` is
`2u64.pow(rom_size) * 1024` computed in `u64`, i.e. modulo `2 ^ 64`. -/
def header_checks_out (rom : RomHeader) (real_size : Nat) : Bool :=
  if rom.fixed_value ≠ FIXED_VALUE_1 then false
  else
    let calculated_size := (2 ^ rom.rom_size % 2 ^ 64) * 1024 % 2 ^ 64
    if real_size = calculated_size then true else false

/-- The one error `find_rom_header` can return (`bail!("Could not detect a
valid header. ...")`). -/
inductive SnesError where
  | noValidHeader
deriving DecidableEq, Repr

/-- The single 32816-byte buffer read at file position `offset + 0x7FB0`
(`HEADER_BUFFER_SIZE = (0xFFB0 - 0x7FB0) + 48`).  The Rust array is
zero-initialised and `file.read` fills only the bytes the file provides,
so positions past the end of the file read as 0. -/
def snesBuf (f : ByteSrc) (offset : Nat) : Nat → Nat :=
  fun i => if i < 32816 ∧ offset + 0x7FB0 + i < f.len then f.data (offset + 0x7FB0 + i) else 0

/-- A 48-byte header window read directly from the file at absolute
position `pos` (zero-extended past end of file). -/
def fileWindow (f : ByteSrc) (pos : Nat) : Nat → Nat :=
  fun j => if pos + j < f.len then f.data (pos + j) else 0

/-- The header candidate parsed directly from the file at absolute
position `offset + base` (used to state what `find_rom_header` returns). -/
def headerCandidate (f : ByteSrc) (offset base : Nat) : RomHeader :=
  read_header_at (fileWindow f (offset + base)) 0

/-- `find_rom_header`: try the LoROM candidate (buffer offset
`0x7FB0 - 0x7FB0 = 0`), then the HiROM candidate (buffer offset
`0xFFB0 - 0x7FB0 = 0x8000`), else fail.  `real_size = size - offset`
(`u64` subtraction; `offset ≤ size` in every call context). -/
def find_rom_header (f : ByteSrc) (size offset : Nat) : Except SnesError RomHeader :=
  let real_size := size - offset
  let buffer := snesBuf f offset
  let rom := read_header_at buffer 0
  if header_checks_out rom real_size then Except.ok rom
  else
    let rom2 := read_header_at buffer 0x8000
    if header_checks_out rom2 real_size then Except.ok rom2
    else Except.error SnesError.noValidHeader

/-- `StorageSize { bytes, kilobytes, kilobits }`, all `u32`. -/
structure StorageSize where
  bytes : Nat
  kilobytes : Nat
  kilobits : Nat
deriving DecidableEq, Repr

/-- `kilobytes_to_storage`: derive all three units from the single
kilobyte count by `u32` arithmetic (products taken modulo `2 ^ 32`). -/
def kilobytes_to_storage (kilobyte_len : Nat) : StorageSize where
  bytes := kilobyte_len * 1024 % 2 ^ 32
  kilobits := kilobyte_len * 8 % 2 ^ 32
  kilobytes := kilobyte_len % 2 ^ 32

/-- `RomHeader::rom_size()` / `sram_size()`:
`kilobytes_to_storage(2u32.pow(exponent))`, the `u32` power wrapping. -/
def storage_from_exponent (exponent : Nat) : StorageSize :=
  kilobytes_to_storage (2 ^ exponent % 2 ^ 32)

/-- The static `MAP_MODES` table. -/
def MAP_MODES : List (Nat × String) :=
  [(0x20, "2.68MHz LoROM"), (0x21, "2.68MHz HiROM"), (0x23, "SA-1"),
   (0x25, "2.68MHz ExHiROM"), (0x30, "3.58MHz LoROM"), (0x31, "3.58MHz HiROM"),
   (0x35, "3.58MHz ExHiROM")]

/-- The static `CARTRIDGE_TYPES` table. -/
def CARTRIDGE_TYPES : List (Nat × String) :=
  [(0x00, "ROM only"), (0x01, "ROM and RAM"), (0x02, "ROM, RAM and battery"),
   (0x33, "ROM and SA-1"), (0x34, "ROM, SA-1 and RAM"), (0x35, "ROM, SA-1, RAM and battery")]

/-- The static `DESTINATION_CODES` table. -/
def DESTINATION_CODES : List (Nat × String) :=
  [(0x00, "Japan"), (0x01, "North America"), (0x02, "Europe"), (0x03, "Nordic"),
   (0x04, "Finland"), (0x05, "Denmark"), (0x06, "France"), (0x07, "Netherlands"),
   (0x08, "Spain"), (0x09, "Germany"), (0x0A, "Italy"), (0x0B, "China"),
   (0x0C, "Indonesia"), (0x0D, "Korea"), (0x0F, "Canada"), (0x10, "Brazil"),
   (0x11, "Australia")]

/-- `lookup_description`: table hit gives the label, miss gives
`format!("Unknown {:#x}", code)`. -/
def lookup_description (code : Nat) (map : List (Nat × String)) : String :=
  match map.lookup code with
  | some desc => desc
  | none => "Unknown " ++ rustHexFmt code

/-- `RomHeader::map_mode_description` (on the raw map-mode byte). -/
def map_mode_description (map_mode : Nat) : String :=
  lookup_description map_mode MAP_MODES

/-- `RomHeader::cartridge_type_description`. -/
def cartridge_type_description (cartridge_type : Nat) : String :=
  lookup_description cartridge_type CARTRIDGE_TYPES

/-- `RomHeader::destination_code_description`. -/
def destination_code_description (destination_code : Nat) : String :=
  lookup_description destination_code DESTINATION_CODES

/-- The decoded `Rom` record (`rom_from_header`).  `title_raw` stands for
the source's `header.name` string, kept as the raw EUC-JP bytes. -/
structure Rom where
  map_mode : String
  cartridge_type : String
  target_market : String
  title_raw : List Nat
  has_smc_header : Bool
  rom_size : StorageSize
  sram_size : StorageSize
deriving DecidableEq, Repr

/-- `rom_from_header`: total formatting of a validated header. -/
def rom_from_header (h : RomHeader) (has_smc_header : Bool) : Rom where
  map_mode := map_mode_description h.map_mode
  cartridge_type := cartridge_type_description h.cartridge_type
  target_market := destination_code_description h.destination_code
  title_raw := h.name_raw
  has_smc_header := has_smc_header
  rom_size := storage_from_exponent h.rom_size
  sram_size := storage_from_exponent h.sram_size

/-- Outcome of `rom_from_file`: a decoded record, the propagated
no-valid-header error, or the `panic!("Invalid file? rem 1024 is {}", x)`
abort.  The source has no other error path over an in-memory source. -/
inductive SnesDecode where
  | ok (rom : Rom)
  | errNoValidHeader
  | panicked (rem : Nat)
deriving DecidableEq, Repr

/-- `rom_from_file`: the length-remainder check (`metadata.len() % 1024`)
selects the SMC-prefix offset, panics on any other remainder, then header
location runs and the decoded record is built. -/
def rom_from_file (f : ByteSrc) : SnesDecode :=
  if f.len % 1024 = 0 then
    match find_rom_header f f.len 0 with
    | Except.ok h => SnesDecode.ok (rom_from_header h false)
    | Except.error _ => SnesDecode.errNoValidHeader
  else if f.len % 1024 = 512 then
    match find_rom_header f f.len 0x200 with
    | Except.ok h => SnesDecode.ok (rom_from_header h true)
    | Except.error _ => SnesDecode.errNoValidHeader
  else SnesDecode.panicked (f.len % 1024)

end Snes

namespace Megadrive

/-- `megadrive.rs` `Region`. -/
inductive Region where
  | Japan
  | Americas
  | Europe
deriving DecidableEq, Repr

/-- `HEX_CHARS`: the sixteen uppercase hex digits whose list position is
the digit's numeric value. -/
def HEX_CHARS : List Char :=
  ['0', '1', '2', '3', '4', '5', '6', '7', '8', '9', 'A', 'B', 'C', 'D', 'E', 'F']

/-- `new_region_code`: bitmask decoding, 1 = Japan, 4 = Americas,
8 = Europe (2 unused), pushed in that order. -/
def new_region_code (code : Nat) : List Region :=
  (if code &&& 0x01 ≠ 0 then [Region.Japan] else []) ++
  (if code &&& 0x04 ≠ 0 then [Region.Americas] else []) ++
  (if code &&& 0x08 ≠ 0 then [Region.Europe] else [])

/-- `old_region_code`: the legacy three-letter format, membership of each
of `J`, `U`, `E` tested in that order. -/
def old_region_code (codes : List Char) : List Region :=
  (if codes.contains 'J' then [Region.Japan] else []) ++
  (if codes.contains 'U' then [Region.Americas] else []) ++
  (if codes.contains 'E' then [Region.Europe] else [])

/-- The non-special-case part of `supported_regions` on the field's
character list `chars`: look at `chars[0]` (`none` models the source's
index panic on an empty list, unreachable because the field is three
bytes), and decode by bitmask when it is a hex digit, by the legacy
letters otherwise. -/
def region_code_of_chars (chars : List Char) : Option (List Region) :=
  match chars with
  | [] => none
  | first_char :: _ =>
    match position (fun c => c == first_char) HEX_CHARS with
    | some pos => some (new_region_code pos)
    | none => some (old_region_code chars)

/-- `RomHeader::supported_regions`, as a function of the raw 3-byte
region field string (which the source deliberately does not strip). -/
def supported_regions (s : String) : Option (List Region) :=
  if s = "E  " then some [Region.Europe]
  else region_code_of_chars s.data

/-- Which branch of `supported_regions` produced the result: the
special-case `"E  "` equality test, the hex-digit bitmask branch, or the
legacy letter fallback.  Mirrors `supported_regions` exactly. -/
inductive RegionBranch where
  | special
  | hexDigit
  | legacy
deriving DecidableEq, Repr

/-- Branch selector of `supported_regions` (same tests, same order). -/
def supported_regions_branch (s : String) : Option RegionBranch :=
  if s = "E  " then some RegionBranch.special
  else
    match s.data with
    | [] => none
    | first_char :: _ =>
      match position (fun c => c == first_char) HEX_CHARS with
      | some _ => some RegionBranch.hexDigit
      | none => some RegionBranch.legacy

/-- `RomHeader::software_type`: four known two-letter codes, anything
else becomes `format!("Unknown '{}'", other)`. -/
def software_type (s : String) : String :=
  if s = "GM" then "Game"
  else if s = "AI" then "Aid"
  else if s = "OS" then "Boot ROM (TMSS)"
  else if s = "BR" then "Boot ROM (Sega CD)"
  else "Unknown '" ++ s ++ "'"

/-- `MONTHS`: the fixed ordered list of twelve month abbreviations. -/
def MONTHS : List String :=
  ["JAN", "FEB", "MAR", "APR", "MAY", "JUN", "JUL", "AUG", "SEP", "OCT", "NOV", "DEC"]

/-- `RomHeader::release_month`, as a function of the normalized 3-letter
field value: `MONTHS.iter().position(..)` used directly (`pos as u8`),
`None` mapped to 0. -/
def release_month (s : String) : Nat :=
  match position (fun m => m == s) MONTHS with
  | some pos => pos
  | none => 0

end Megadrive

namespace Nds

/-- `nds.rs` `Device`. -/
inductive Device where
  | DS
  | DSi
deriving DecidableEq, Repr

/-- Unicode White_Space code points (Rust `char::is_whitespace`). -/
def isRustWhitespace (c : Char) : Bool :=
  c.toNat ∈ [0x09, 0x0A, 0x0B, 0x0C, 0x0D, 0x20, 0x85, 0xA0, 0x1680,
    0x2000, 0x2001, 0x2002, 0x2003, 0x2004, 0x2005, 0x2006, 0x2007,
    0x2008, 0x2009, 0x200A, 0x2028, 0x2029, 0x202F, 0x205F, 0x3000]

/-- Is `b` a UTF-8 continuation byte (`0x80..0xBF`)? -/
def isCont (b : Nat) : Bool := 0x80 ≤ b ∧ b < 0xC0

/-- UTF-8 decoding (the validity rules of Rust's `String::from_utf8`):
ASCII; 2-byte leads `C2..DF`; 3-byte leads `E0` (second byte `A0..BF`),
`E1..EC`, `ED` (second byte `80..9F`, excluding surrogates), `EE..EF`;
4-byte leads `F0` (second byte `90..BF`), `F1..F3`, `F4` (second byte
`80..8F`).  Fuel-structured so that the kernel evaluates it; started with
`fuel = length` the fuel never runs out. -/
def utf8DecodeAux : Nat → List Nat → Option (List Char)
  | _, [] => some []
  | 0, _ :: _ => none
  | fuel + 1, b :: rest =>
    if b < 0x80 then
      (utf8DecodeAux fuel rest).map (fun cs => Char.ofNat b :: cs)
    else if 0xC2 ≤ b ∧ b ≤ 0xDF then
      match rest with
      | b1 :: rest1 =>
        if isCont b1 then
          (utf8DecodeAux fuel rest1).map (fun cs => Char.ofNat ((b - 0xC0) * 64 + (b1 - 0x80)) :: cs)
        else none
      | [] => none
    else if 0xE0 ≤ b ∧ b ≤ 0xEF then
      match rest with
      | b1 :: b2 :: rest2 =>
        let lowOk : Bool :=
          if b = 0xE0 then 0xA0 ≤ b1 ∧ b1 < 0xC0
          else if b = 0xED then 0x80 ≤ b1 ∧ b1 < 0xA0
          else isCont b1
        if lowOk ∧ isCont b2 then
          (utf8DecodeAux fuel rest2).map
            (fun cs => Char.ofNat ((b - 0xE0) * 4096 + (b1 - 0x80) * 64 + (b2 - 0x80)) :: cs)
        else none
      | _ => none
    else if 0xF0 ≤ b ∧ b ≤ 0xF4 then
      match rest with
      | b1 :: b2 :: b3 :: rest3 =>
        let lowOk : Bool :=
          if b = 0xF0 then 0x90 ≤ b1 ∧ b1 < 0xC0
          else if b = 0xF4 then 0x80 ≤ b1 ∧ b1 < 0x90
          else isCont b1
        if lowOk ∧ isCont b2 ∧ isCont b3 then
          (utf8DecodeAux fuel rest3).map
            (fun cs =>
              Char.ofNat ((b - 0xF0) * 262144 + (b1 - 0x80) * 4096 + (b2 - 0x80) * 64 + (b3 - 0x80)) :: cs)
        else none
      | _ => none
    else none

/-- `String::from_utf8` on a byte list: `some` exactly on valid UTF-8. -/
def utf8Decode (bs : List Nat) : Option (List Char) :=
  utf8DecodeAux bs.length bs

/-- The NUL character, `char::from(0x00)`. -/
def charNul : Char := Char.ofNat 0

/-- Rust `str::trim_end`: drop trailing whitespace characters. -/
def trimEndWs (cs : List Char) : List Char :=
  (cs.reverse.dropWhile isRustWhitespace).reverse

/-- Rust `str::trim_matches(c)`: drop `c` from both ends. -/
def trimMatches (c : Char) (cs : List Char) : List Char :=
  ((cs.dropWhile (· == c)).reverse.dropWhile (· == c)).reverse

/-- `nds.rs` `bytes_to_stripped_string`: strict UTF-8 decode (the `?`
propagates a failure), then `trim_end().trim_matches(char::from(0x00))`. -/
def bytes_to_stripped_string (bytes : List Nat) : Except Unit String :=
  match utf8Decode bytes with
  | some cs => Except.ok (String.mk (trimMatches charNul (trimEndWs cs)))
  | none => Except.error ()

/-- `RomHeader::supported_devices`, as a function of `unit_code`. -/
def supported_devices (unit_code : Nat) : List Device :=
  if unit_code = 3 then [Device.DSi]
  else if unit_code = 2 then [Device.DS, Device.DSi]
  else [Device.DS]

/-- The parsed `nds.rs` `RomHeader`. -/
structure RomHeader where
  game_title : String
  game_code : String
  maker_code : String
  unit_code : Nat
  device_type : Nat
  card_size : Nat
  flags : Nat
deriving DecidableEq, Repr

/-- The decoded `nds.rs` `Rom`. -/
structure Rom where
  software_title : String
  game_code : String
  maker_code : String
  supported_devices : List Device
deriving DecidableEq, Repr

/-- The 512-byte zero-initialised read buffer filled from the start of
the file. -/
def ndsBuf (f : ByteSrc) : Nat → Nat :=
  fun i => if i < 512 ∧ i < f.len then f.data i else 0

/-- binread parse of the NDS header layout: title (12 bytes), game code
(4), maker code (2), three `u8`s, 8 bytes of padding, flags.  A `try_map`
failure on any text field aborts the parse. -/
def read_header (buf : Nat → Nat) : Except Unit RomHeader := do
  let game_title ← bytes_to_stripped_string (readBytes buf 0 12)
  let game_code ← bytes_to_stripped_string (readBytes buf 12 4)
  let maker_code ← bytes_to_stripped_string (readBytes buf 16 2)
  Except.ok
    { game_title := game_title, game_code := game_code, maker_code := maker_code,
      unit_code := buf 18, device_type := buf 19, card_size := buf 20, flags := buf 29 }

/-- `nds.rs` `rom_from_file` over an in-memory byte source. -/
def rom_from_file (f : ByteSrc) : Except Unit Rom :=
  match read_header (ndsBuf f) with
  | Except.ok h =>
    Except.ok
      { software_title := h.game_title, game_code := h.game_code,
        maker_code := h.maker_code, supported_devices := supported_devices h.unit_code }
  | Except.error e => Except.error e

end Nds

/-! ### Helper lemmas -/

theorem position_lt_length {α : Type} (p : α → Bool) :
    ∀ (l : List α) (i : Nat), position p l = some i → i < l.length := by
  intro l
  induction l with
  | nil => intro i h; simp [position] at h
  | cons a t ih =>
    intro i h
    simp only [position] at h
    by_cases hp : p a
    · rw [if_pos hp] at h
      injection h with h
      subst h
      simp only [List.length_cons]
      omega
    · rw [if_neg hp, Option.map_eq_some'] at h
      obtain ⟨j, hj, hji⟩ := h
      have := ih j hj
      simp only [List.length_cons]
      omega

theorem position_eq_none_of_not_mem {α : Type} [BEq α] [LawfulBEq α] (s : α) :
    ∀ l : List α, s ∉ l → position (fun m => m == s) l = none := by
  intro l
  induction l with
  | nil => intro _; rfl
  | cons a t ih =>
    intro h
    have ha : a ≠ s := fun he => h (he ▸ List.mem_cons_self a t)
    have ht : s ∉ t := fun hm => h (List.mem_cons_of_mem a hm)
    simp only [position, beq_eq_false_iff_ne.mpr ha, ih ht, Option.map_none']
    rfl

theorem readBytes_congr (b1 b2 : Nat → Nat) (o1 o2 s n : Nat)
    (h : ∀ j, j < 48 → b1 (o1 + j) = b2 (o2 + j)) (hn : s + n ≤ 48) :
    readBytes b1 (o1 + s) n = readBytes b2 (o2 + s) n := by
  unfold readBytes
  apply List.map_congr_left
  intro i hi
  rw [List.mem_range] at hi
  have h1 : o1 + s + i = o1 + (s + i) := by omega
  have h2 : o2 + s + i = o2 + (s + i) := by omega
  rw [h1, h2]
  exact h (s + i) (by omega)

theorem read_header_at_congr (b1 b2 : Nat → Nat) (o1 o2 : Nat)
    (h : ∀ j, j < 48 → b1 (o1 + j) = b2 (o2 + j)) :
    Snes.read_header_at b1 o1 = Snes.read_header_at b2 o2 := by
  unfold Snes.read_header_at read_u16_be
  have e1 : o1 + 44 + 1 = o1 + 45 := by omega
  have e2 : o2 + 44 + 1 = o2 + 45 := by omega
  have e3 : o1 + 46 + 1 = o1 + 47 := by omega
  have e4 : o2 + 46 + 1 = o2 + 47 := by omega
  rw [Snes.RomHeader.mk.injEq]
  refine ⟨readBytes_congr b1 b2 o1 o2 0 2 h (by omega),
    readBytes_congr b1 b2 o1 o2 2 4 h (by omega),
    readBytes_congr b1 b2 o1 o2 6 7 h (by omega),
    h 13 (by omega), h 14 (by omega), h 15 (by omega),
    readBytes_congr b1 b2 o1 o2 16 21 h (by omega),
    h 37 (by omega), h 38 (by omega), h 39 (by omega), h 40 (by omega),
    h 41 (by omega), h 42 (by omega), h 43 (by omega), ?_, ?_⟩
  · rw [e1, e2, h 44 (by omega), h 45 (by omega)]
  · rw [e3, e4, h 46 (by omega), h 47 (by omega)]

/-! ### Claim theorems -/

/-- C3 counterexample: the claim says the legacy triplet letters J, U, E
in any order yield {Japan, Americas, Europe}; but for the field `"EJU"`
the first character `E` is a hex digit, so the bitmask branch runs with
value `0xE` and Japan is missing from the result. -/
theorem c3_counterexample :
    Megadrive.supported_regions "EJU" =
      some [Megadrive.Region.Americas, Megadrive.Region.Europe] ∧
    Megadrive.Region.Japan ∉ [Megadrive.Region.Americas, Megadrive.Region.Europe] := by
  decide

/-- C3 (amended): the triplet letters J, U, E yield
{Japan, Americas, Europe} for the orders whose first letter is not a hex
digit (`"JUE"`, `"JEU"`, `"UJE"`, `"UEJ"`); the orders starting with `E`
take the hex branch and yield {Americas, Europe}.  A field whose first
byte is `'4'` yields exactly {Americas}.  The field `" E "` yields
exactly {Europe} via the legacy fallback branch (a space is not a hex
digit); the special-case branch matches only the exact string `"E  "`. -/
theorem c3_region_decoding_amended :
    (Megadrive.supported_regions "JUE" =
        some [Megadrive.Region.Japan, Megadrive.Region.Americas, Megadrive.Region.Europe] ∧
      Megadrive.supported_regions "JEU" =
        some [Megadrive.Region.Japan, Megadrive.Region.Americas, Megadrive.Region.Europe] ∧
      Megadrive.supported_regions "UJE" =
        some [Megadrive.Region.Japan, Megadrive.Region.Americas, Megadrive.Region.Europe] ∧
      Megadrive.supported_regions "UEJ" =
        some [Megadrive.Region.Japan, Megadrive.Region.Americas, Megadrive.Region.Europe] ∧
      Megadrive.supported_regions "EJU" =
        some [Megadrive.Region.Americas, Megadrive.Region.Europe] ∧
      Megadrive.supported_regions "EUJ" =
        some [Megadrive.Region.Americas, Megadrive.Region.Europe]) ∧
    (∀ (s : String) (rest : List Char), s.data = '4' :: rest →
      Megadrive.supported_regions s = some [Megadrive.Region.Americas]) ∧
    (Megadrive.supported_regions " E " = some [Megadrive.Region.Europe] ∧
      Megadrive.supported_regions_branch " E " = some Megadrive.RegionBranch.legacy) := by
  refine ⟨by decide, ?_, by decide⟩
  intro s rest h
  have hne : s ≠ "E  " := by
    intro he
    rw [he] at h
    have hd : ("E  ").data = ['E', ' ', ' '] := rfl
    rw [hd] at h
    simp at h
  have hpos : position (fun c => c == '4') Megadrive.HEX_CHARS = some 4 := by decide
  unfold Megadrive.supported_regions
  rw [if_neg hne, h]
  simp only [Megadrive.region_code_of_chars, hpos]
  decide

/-- C3 witness: the amended theorem applied to the concrete field
`"4AB"`, whose first byte is `'4'`. -/
theorem c3_witness :
    Megadrive.supported_regions "4AB" = some [Megadrive.Region.Americas] :=
  c3_region_decoding_amended.2.1 "4AB" ['A', 'B'] rfl

/-- C4 counterexample: the claim says a month-list match yields a 1–12
month number; the code returns the 0-based list position, so `"JAN"`
yields 0, which is not in 1–12. -/
theorem c4_counterexample :
    Megadrive.release_month "JAN" = 0 ∧ ¬ 1 ≤ Megadrive.release_month "JAN" := by
  decide

/-- C4 (amended): matching the 3-letter field against the fixed ordered
month list yields the 0-based list position (0 for `"JAN"` through 11 for
`"DEC"`) when it matches, and 0 (unknown), never a failure, when it
matches none of the twelve — so `"JAN"` is indistinguishable from an
unknown month. -/
theorem c4_release_month_amended :
    (Megadrive.release_month "JAN" = 0 ∧ Megadrive.release_month "FEB" = 1 ∧
      Megadrive.release_month "MAR" = 2 ∧ Megadrive.release_month "APR" = 3 ∧
      Megadrive.release_month "MAY" = 4 ∧ Megadrive.release_month "JUN" = 5 ∧
      Megadrive.release_month "JUL" = 6 ∧ Megadrive.release_month "AUG" = 7 ∧
      Megadrive.release_month "SEP" = 8 ∧ Megadrive.release_month "OCT" = 9 ∧
      Megadrive.release_month "NOV" = 10 ∧ Megadrive.release_month "DEC" = 11) ∧
    (∀ s : String, s ∉ Megadrive.MONTHS → Megadrive.release_month s = 0) ∧
    (∀ s : String, Megadrive.release_month s ≤ 11) := by
  refine ⟨by decide, ?_, ?_⟩
  · intro s hs
    unfold Megadrive.release_month
    rw [position_eq_none_of_not_mem s Megadrive.MONTHS hs]
  · intro s
    unfold Megadrive.release_month
    cases h : position (fun m => m == s) Megadrive.MONTHS with
    | none => show (0 : Nat) ≤ 11; omega
    | some i =>
      show i ≤ 11
      have hi := position_lt_length (fun m => m == s) Megadrive.MONTHS i h
      have hlen : Megadrive.MONTHS.length = 12 := rfl
      omega

/-- C4 witness: the amended theorem applied to the unmatched field
`"XYZ"`. -/
theorem c4_witness : Megadrive.release_month "XYZ" = 0 :=
  c4_release_month_amended.2.1 "XYZ" (by decide)

/-- C10: the only region-field value exempted from the hex-digit rule is
the exact string `"E  "`, which yields exactly {Europe} even though the
hex value `0xE` of `'E'` would yield {Americas, Europe}; every other
string whose first character is a hex digit (position `k` in
`HEX_CHARS`) is decoded by the bitmask rule. -/
theorem c10_region_hex_rule :
    Megadrive.supported_regions "E  " = some [Megadrive.Region.Europe] ∧
    Megadrive.new_region_code 14 = [Megadrive.Region.Americas, Megadrive.Region.Europe] ∧
    (∀ (s : String) (c : Char) (rest : List Char) (k : Nat), s ≠ "E  " →
      s.data = c :: rest → position (fun x => x == c) Megadrive.HEX_CHARS = some k →
      Megadrive.supported_regions s = some (Megadrive.new_region_code k)) := by
  refine ⟨by decide, by decide, ?_⟩
  intro s c rest k hne hdata hpos
  unfold Megadrive.supported_regions
  rw [if_neg hne, hdata]
  simp only [Megadrive.region_code_of_chars, hpos]

/-- C10 witness: the hex rule applied to the concrete field `"F  "`
(first character `'F'`, hex value 15). -/
theorem c10_witness :
    Megadrive.supported_regions "F  " = some (Megadrive.new_region_code 15) :=
  c10_region_hex_rule.2.2 "F  " 'F' [' ', ' '] 15 (by decide) rfl (by decide)

/-- C8: a byte code absent from the static map-mode, cartridge-type or
destination-code table yields the label `"Unknown " ++ "0x.."` holding
the raw code value, and a software-type string other than the four known
codes yields `Unknown` followed by the raw field in quotes; none of these
lookups can fail. -/
theorem c8_unknown_codes :
    (∀ code : Nat, Snes.MAP_MODES.lookup code = none →
      Snes.map_mode_description code = "Unknown " ++ rustHexFmt code) ∧
    (∀ code : Nat, Snes.CARTRIDGE_TYPES.lookup code = none →
      Snes.cartridge_type_description code = "Unknown " ++ rustHexFmt code) ∧
    (∀ code : Nat, Snes.DESTINATION_CODES.lookup code = none →
      Snes.destination_code_description code = "Unknown " ++ rustHexFmt code) ∧
    (∀ s : String, s ≠ "GM" → s ≠ "AI" → s ≠ "OS" → s ≠ "BR" →
      Megadrive.software_type s = "Unknown '" ++ s ++ "'") := by
  refine ⟨?_, ?_, ?_, ?_⟩
  · intro code h
    unfold Snes.map_mode_description Snes.lookup_description
    rw [h]
  · intro code h
    unfold Snes.cartridge_type_description Snes.lookup_description
    rw [h]
  · intro code h
    unfold Snes.destination_code_description Snes.lookup_description
    rw [h]
  · intro s h1 h2 h3 h4
    unfold Megadrive.software_type
    rw [if_neg h1, if_neg h2, if_neg h3, if_neg h4]

/-- C8 witness: map-mode byte `0x22` is not in the table and produces the
marked unknown label. -/
theorem c8_witness : Snes.map_mode_description 0x22 = "Unknown " ++ rustHexFmt 0x22 :=
  c8_unknown_codes.1 0x22 (by decide)

/-- C9: the `StorageSize` produced from a size exponent satisfies
`bytes == kilobytes * 1024` and `bytes == kilobits * 128` as the `u32`
computations the code performs (products modulo `2 ^ 32`), for every
exponent; and for every exponent small enough that no `u32` product
wraps (`e ≤ 21`) the same equations hold over the unbounded integers. -/
theorem c9_storage_consistency (e : Nat) :
    ((Snes.storage_from_exponent e).bytes =
        (Snes.storage_from_exponent e).kilobytes * 1024 % 2 ^ 32 ∧
      (Snes.storage_from_exponent e).bytes =
        (Snes.storage_from_exponent e).kilobits * 128 % 2 ^ 32) ∧
    (e ≤ 21 →
      (Snes.storage_from_exponent e).bytes = (Snes.storage_from_exponent e).kilobytes * 1024 ∧
      (Snes.storage_from_exponent e).bytes = (Snes.storage_from_exponent e).kilobits * 128) := by
  unfold Snes.storage_from_exponent Snes.kilobytes_to_storage
  simp only
  constructor
  · constructor
    · rw [Nat.mod_mod_of_dvd _ dvd_rfl]
    · rw [Nat.mod_mul_mod, Nat.mod_mul_mod, mul_assoc]
      norm_num [Nat.mod_mul_mod]
  · intro he
    have hk : (2 : Nat) ^ e < 2 ^ 32 :=
      Nat.pow_lt_pow_right (by norm_num) (by omega)
    have hb : (2 : Nat) ^ e * 1024 < 2 ^ 32 := by
      calc (2 : Nat) ^ e * 1024 ≤ 2 ^ 21 * 1024 :=
              Nat.mul_le_mul_right 1024 (Nat.pow_le_pow_right (by norm_num) he)
        _ < 2 ^ 32 := by norm_num
    have h8 : (2 : Nat) ^ e * 8 < 2 ^ 32 := by
      calc (2 : Nat) ^ e * 8 ≤ 2 ^ e * 1024 :=
              Nat.mul_le_mul_left _ (by norm_num)
        _ < 2 ^ 32 := hb
    rw [Nat.mod_eq_of_lt hk, Nat.mod_eq_of_lt hb, Nat.mod_eq_of_lt h8]
    constructor
    · rw [Nat.mod_eq_of_lt hk]
    · rw [mul_assoc]
      norm_num

/-- C9 witness: the unwrapped equations at the concrete exponent 8
(a 256 kB image). -/
theorem c9_witness :
    (Snes.storage_from_exponent 8).bytes = (Snes.storage_from_exponent 8).kilobytes * 1024 ∧
    (Snes.storage_from_exponent 8).bytes = (Snes.storage_from_exponent 8).kilobits * 128 :=
  (c9_storage_consistency 8).2 (by norm_num)

/-- C5 counterexample: a 100-byte file (remainder 100 mod 1024, neither 0
nor 512) makes `rom_from_file` panic (`panic!("Invalid file? rem 1024 is
{}", x)`) instead of returning a typed malformed-file-length error; the
decoder's error type has no such kind at all. -/
theorem c5_counterexample :
    Snes.rom_from_file ⟨100, fun _ => 0⟩ = Snes.SnesDecode.panicked 100 := by
  decide

/-- C5 (amended): for every file whose total length modulo 1024 is
neither 0 nor 512, decoding fails fast before header location is
attempted — but by panicking with the offending remainder, not by
returning a typed malformed-file-length error (no such error kind exists
in the code). -/
theorem c5_malformed_length_amended (f : ByteSrc)
    (h0 : f.len % 1024 ≠ 0) (h512 : f.len % 1024 ≠ 512) :
    Snes.rom_from_file f = Snes.SnesDecode.panicked (f.len % 1024) := by
  unfold Snes.rom_from_file
  rw [if_neg h0, if_neg h512]

/-- C5 witness: the amended theorem applied to a 700-byte file. -/
theorem c5_witness :
    Snes.rom_from_file ⟨700, fun _ => 0⟩ = Snes.SnesDecode.panicked 700 := by
  have h := c5_malformed_length_amended ⟨700, fun _ => 0⟩ (by decide) (by decide)
  simpa using h

/-- C6 counterexample: an empty byte source — far shorter than the
console-C layout — decodes successfully as a zero-filled record instead
of failing with a truncated-buffer error (the 512-byte read buffer is
zero-initialised and the parse runs over it). -/
theorem c6_counterexample :
    Nds.rom_from_file ⟨0, fun _ => 0⟩ =
      Except.ok ⟨"", "", "", [Nds.Device.DS]⟩ ∧
    Nds.rom_from_file ⟨0, fun _ => 0⟩ ≠ Except.error () := by
  refine ⟨rfl, ?_⟩
  intro h
  rw [show Nds.rom_from_file ⟨0, fun _ => 0⟩ =
    Except.ok ⟨"", "", "", [Nds.Device.DS]⟩ from rfl] at h
  exact Except.noConfusion h

/-- C6 (amended): no decoder has a truncated-buffer error kind; a byte
source shorter than the fixed layout is zero-extended to the fixed-size
read buffer and parsed from it.  A short console-C image therefore
decodes silently as a zero-filled record, and a short console-A image is
rejected, if at all, by header validation with the no-valid-header kind
(shown for an all-zero 2048-byte file, whose zero-filled header fails
the size cross-check). -/
theorem c6_truncated_amended :
    (∀ f : ByteSrc, f.len = 0 →
      Nds.rom_from_file f = Except.ok ⟨"", "", "", [Nds.Device.DS]⟩) ∧
    Snes.rom_from_file ⟨2048, fun _ => 0⟩ = Snes.SnesDecode.errNoValidHeader := by
  constructor
  · intro f h
    have hbuf : Nds.ndsBuf f = fun _ => 0 := by
      funext i
      simp [Nds.ndsBuf, h]
    unfold Nds.rom_from_file
    rw [hbuf]
    rfl
  · decide

/-- C6 witness: the amended theorem applied to an empty source with junk
data outside its (zero) length. -/
theorem c6_witness :
    Nds.rom_from_file ⟨0, fun i => i + 7⟩ = Except.ok ⟨"", "", "", [Nds.Device.DS]⟩ :=
  c6_truncated_amended.1 ⟨0, fun i => i + 7⟩ rfl

/-- C7 counterexample: a console-C image whose first title byte is 0xFF
(invalid UTF-8) fails the whole decode — text decoding is not
best-effort there, contradicting the claim. -/
theorem c7_counterexample :
    Nds.rom_from_file ⟨1, fun _ => 255⟩ = Except.error () := by
  rfl

/-- C7 (amended): text fields decoded through the error-ignoring legacy
Japanese codecs cannot fail, but console C's text fields (like console
B's region field and release-year parse) are strict: normalization
itself (trimming) never fails, so `bytes_to_stripped_string` succeeds
exactly when the bytes are valid UTF-8, and the console-C decode
succeeds exactly when its three text fields are valid UTF-8. -/
theorem c7_normalization_amended :
    (∀ bytes : List Nat,
      (Nds.bytes_to_stripped_string bytes).isOk = (Nds.utf8Decode bytes).isSome) ∧
    (∀ f : ByteSrc, (Nds.rom_from_file f).isOk =
      ((Nds.utf8Decode (readBytes (Nds.ndsBuf f) 0 12)).isSome &&
       (Nds.utf8Decode (readBytes (Nds.ndsBuf f) 12 4)).isSome &&
       (Nds.utf8Decode (readBytes (Nds.ndsBuf f) 16 2)).isSome)) := by
  have hiff : ∀ bytes : List Nat,
      (Nds.bytes_to_stripped_string bytes).isOk = (Nds.utf8Decode bytes).isSome := by
    intro bytes
    unfold Nds.bytes_to_stripped_string
    cases h : Nds.utf8Decode bytes with
    | none => rfl
    | some cs => rfl
  refine ⟨hiff, ?_⟩
  intro f
  unfold Nds.rom_from_file Nds.read_header
  cases h1 : Nds.utf8Decode (readBytes (Nds.ndsBuf f) 0 12) with
  | none =>
    simp [Nds.bytes_to_stripped_string, h1, Except.isOk, Except.toBool, Bind.bind, Except.bind]
  | some cs1 =>
    cases h2 : Nds.utf8Decode (readBytes (Nds.ndsBuf f) 12 4) with
    | none =>
      simp [Nds.bytes_to_stripped_string, h1, h2, Except.isOk, Except.toBool, Bind.bind,
        Except.bind]
    | some cs2 =>
      cases h3 : Nds.utf8Decode (readBytes (Nds.ndsBuf f) 16 2) with
      | none =>
        simp [Nds.bytes_to_stripped_string, h1, h2, h3, Except.isOk, Except.toBool, Bind.bind,
          Except.bind]
      | some cs3 =>
        simp [Nds.bytes_to_stripped_string, h1, h2, h3, Except.isOk, Except.toBool, Bind.bind,
          Except.bind]

/-- C1 counterexample: the claim's iff fails under the code's 64-bit
arithmetic.  A header parsed with stored exponent 54 and an all-zero
sentinel run is accepted against a real payload size of 0 (a 512-byte
file consisting only of the copier prefix has real size 0), because
`2u64.pow(54) * 1024` wraps to 0 — yet `2 ^ 54 * 1024` is not 0, so the
claim says this candidate must fail validation. -/
theorem c1_counterexample :
    Snes.header_checks_out (Snes.read_header_at (fun i => if i = 39 then 54 else 0) 0) 0 = true ∧
    2 ^ (Snes.read_header_at (fun i => if i = 39 then 54 else 0) 0).rom_size * 1024 ≠ 0 := by
  decide

/-- C1 (amended): `header_checks_out` accepts a candidate if and only if
the 7-byte fixed run is all zeros and `2 ^ rom_size * 1024` reduced
modulo `2 ^ 64` (the u64 computation the code performs) equals the real
payload size; for every nonzero real payload size (any `u64` value) this
coincides with the claim's exact-size condition, so an image with a
nonzero real size different from `2 ^ rom_size * 1024` fails validation
even when the zero-sentinel run is all zeros. -/
theorem c1_header_checks_out_amended (rom : Snes.RomHeader) (rs : Nat) :
    (Snes.header_checks_out rom rs = true ↔
      (rom.fixed_value = Snes.FIXED_VALUE_1 ∧ 2 ^ rom.rom_size * 1024 % 2 ^ 64 = rs)) ∧
    (0 < rs → rs < 2 ^ 64 →
      (Snes.header_checks_out rom rs = true ↔
        (rom.fixed_value = Snes.FIXED_VALUE_1 ∧ 2 ^ rom.rom_size * 1024 = rs))) := by
  have hcalc : (2 ^ rom.rom_size % 2 ^ 64) * 1024 % 2 ^ 64 = 2 ^ rom.rom_size * 1024 % 2 ^ 64 :=
    Nat.mod_mul_mod
  have part1 : Snes.header_checks_out rom rs = true ↔
      (rom.fixed_value = Snes.FIXED_VALUE_1 ∧ 2 ^ rom.rom_size * 1024 % 2 ^ 64 = rs) := by
    unfold Snes.header_checks_out
    by_cases hfv : rom.fixed_value = Snes.FIXED_VALUE_1
    · rw [if_neg (by simp [hfv])]
      simp only [hcalc, hfv, true_and]
      by_cases hrs : rs = 2 ^ rom.rom_size * 1024 % 2 ^ 64
      · simp [hrs]
      · rw [if_neg hrs]
        simp only [Bool.false_eq_true, false_iff]
        omega
    · rw [if_pos (by simp [hfv])]
      simp [hfv]
  refine ⟨part1, fun hpos hlt => ?_⟩
  rw [part1]
  constructor
  · rintro ⟨hfv, hmod⟩
    refine ⟨hfv, ?_⟩
    rcases Nat.lt_or_ge (2 ^ rom.rom_size * 1024) (2 ^ 64) with hsm | hbig
    · rwa [Nat.mod_eq_of_lt hsm] at hmod
    · exfalso
      have hpow : 2 ^ rom.rom_size * 1024 = 2 ^ (rom.rom_size + 10) := by
        rw [pow_add]
        norm_num
      rw [hpow] at hmod hbig
      have hle : 64 ≤ rom.rom_size + 10 :=
        (Nat.pow_le_pow_iff_right (by norm_num : 1 < 2)).mp hbig
      obtain ⟨c, hc⟩ := pow_dvd_pow 2 hle
      rw [hc, Nat.mul_mod_right] at hmod
      omega
  · rintro ⟨hfv, heq⟩
    exact ⟨hfv, by rw [heq, Nat.mod_eq_of_lt hlt]⟩

/-- C1 witness: the amended iff applied to a parsed header with stored
exponent 3 (8 kB) against a real payload size of 8192 bytes, which the
predicate accepts. -/
theorem c1_witness :
    Snes.header_checks_out (Snes.read_header_at (fun i => if i = 39 then 3 else 0) 0) 8192 =
      true :=
  ((c1_header_checks_out_amended
      (Snes.read_header_at (fun i => if i = 39 then 3 else 0) 0) 8192).2
    (by norm_num) (by norm_num)).mpr (by decide)

/-- C2: `find_rom_header` equals the ordered two-candidate trial the
claim describes — it parses the candidate at `0x7FB0` past the copier
offset (LoROM) and returns it when it validates against the real payload
size, otherwise parses the candidate at `0xFFB0` (HiROM) and returns it
when it validates, and otherwise returns the no-valid-header error.  The
candidates on the right-hand side are read directly from the byte source,
so the single shared buffer read is also shown to window the file
correctly; the function is deterministic (it is a pure function of the
input bytes), and the LoROM candidate is returned whenever both would
validate, since its test comes first. -/
theorem c2_find_rom_header_candidates (f : ByteSrc) (size offset : Nat) :
    Snes.find_rom_header f size offset =
      (if Snes.header_checks_out (Snes.headerCandidate f offset 0x7FB0) (size - offset) then
        Except.ok (Snes.headerCandidate f offset 0x7FB0)
      else if Snes.header_checks_out (Snes.headerCandidate f offset 0xFFB0) (size - offset) then
        Except.ok (Snes.headerCandidate f offset 0xFFB0)
      else Except.error Snes.SnesError.noValidHeader) := by
  have h1 : Snes.read_header_at (Snes.snesBuf f offset) 0 = Snes.headerCandidate f offset 0x7FB0 := by
    unfold Snes.headerCandidate
    apply read_header_at_congr
    intro j hj
    simp only [Snes.snesBuf, Snes.fileWindow, Nat.zero_add]
    have hb : j < 32816 := by omega
    by_cases hx : offset + 0x7FB0 + j < f.len
    · rw [if_pos ⟨hb, hx⟩, if_pos hx]
    · rw [if_neg (by tauto), if_neg hx]
  have h2 : Snes.read_header_at (Snes.snesBuf f offset) 0x8000 =
      Snes.headerCandidate f offset 0xFFB0 := by
    unfold Snes.headerCandidate
    apply read_header_at_congr
    intro j hj
    simp only [Snes.snesBuf, Snes.fileWindow, Nat.zero_add]
    have hb : 0x8000 + j < 32816 := by omega
    have hidx : offset + 0x7FB0 + (0x8000 + j) = offset + 0xFFB0 + j := by omega
    rw [hidx]
    by_cases hx : offset + 0xFFB0 + j < f.len
    · rw [if_pos ⟨hb, hx⟩, if_pos hx]
    · rw [if_neg (by tauto), if_neg hx]
  unfold Snes.find_rom_header
  dsimp only
  rw [h1, h2]
